import Mathlib

/-!
Verification of the hooman repository's event router, MCP session manager and
reload-watch modules against their natural-language specification.

The TypeScript sources are shallowly embedded:
* pure functions become Lean functions;
* the event router's module state (the shared dedup set) and per-instance
  state (handlers, queue, processing flag) are threaded explicitly;
* the async/await control flow of the MCP manager is embedded as a
  deterministic event-loop simulator whose events (a `getSession` call, the
  natural completion of a build body, the connect timer firing, a `reload`
  call) are processed in the order the JavaScript event loop would run them;
* JS object identity is modelled with explicit allocation counters;
* fallible code returns `Except`, with `try`/`catch` as an explicit `match`.
-/

namespace Hooman

/-! ## Event router (src/unnamed/part_007) -/

/-- An incoming event.  `payload` holds the serialized payload (the model
works directly with the image of `JSON.stringify(e.payload)`); `timestamp`
(`new Date().toISOString()` in the source) is modelled as the dispatch time in
milliseconds, which is all the dedup window logic can observe. -/
structure IncomingEvent where
  id : String
  timestamp : Nat
  source : String
  type : String
  payload : String
  priority : Option Int
deriving DecidableEq, Repr

/-- The event fields a producer passes to `dispatch`
(`Omit<IncomingEvent, "id" | "timestamp">`). -/
structure RawEvent where
  source : String
  type : String
  payload : String
  priority : Option Int
deriving DecidableEq, Repr

/-- `DEDUP_TTL_MS` from the source. -/
def DEDUP_TTL_MS : Nat := 60000

/-- The `DEFAULT_PRIORITY` record: `"message.sent": 10`, `"task.scheduled": 5`,
`internal: 8`; any other key is absent. -/
def DEFAULT_PRIORITY (t : String) : Option Int :=
  if t = "message.sent" then some 10
  else if t = "task.scheduled" then some 5
  else if t = "internal" then some 8
  else none

/-- `eventKey`: the dedup key is `source:type:JSON.stringify(payload)`. -/
def eventKey (e : IncomingEvent) : String :=
  e.source ++ ":" ++ e.type ++ ":" ++ e.payload

/-- `normalizePriority`: an explicit (non-nullish) producer priority wins,
otherwise the `DEFAULT_PRIORITY` table with fallback `5`. -/
def normalizePriority (e : IncomingEvent) : Int :=
  match e.priority with
  | some p => p
  | none => (DEFAULT_PRIORITY e.type).getD 5

/-- The dedup key of a raw event, i.e. `eventKey` of the event `dispatch`
builds from it (the key does not involve `id` or `timestamp`). -/
def rawKey (raw : RawEvent) : String :=
  raw.source ++ ":" ++ raw.type ++ ":" ++ raw.payload

/-- The event object `dispatch` constructs and enqueues: the raw fields spread
together with the generated `id`, the current timestamp, and the normalized
priority (the source calls `normalizePriority` on the raw fields with blank
`id`/`timestamp`, which the function does not read). -/
def mkEvent (raw : RawEvent) (id : String) (now : Nat) : IncomingEvent :=
  { id := id
    timestamp := now
    source := raw.source
    type := raw.type
    payload := raw.payload
    priority := some (normalizePriority
      { id := "", timestamp := 0, source := raw.source, type := raw.type,
        payload := raw.payload, priority := raw.priority }) }

/-- The module-level `seenEventKeys` set.  An entry `(key, expiry)` records
that `key` was added at `expiry - DEDUP_TTL_MS` and that the corresponding
`setTimeout` deletes it at `expiry`; the entry is live at `now` iff
`now < expiry`. -/
def seenHas (seen : List (String × Nat)) (now : Nat) (key : String) : Bool :=
  seen.any fun kv => kv.1 == key && decide (now < kv.2)

/-- The comparand the queue comparator reads: `e.priority ?? 0`. -/
def prio (e : IncomingEvent) : Int := e.priority.getD 0

/-- The comparator `(a, b) => (b.priority ?? 0) - (a.priority ?? 0)` keeps `a`
no later than `b` exactly when the comparator is `≤ 0`, i.e. when
`prio b ≤ prio a`. -/
def priorityLe (a b : IncomingEvent) : Bool := decide (prio b ≤ prio a)

/-- `this.queue.sort(...)`: `Array.prototype.sort` is stable, so the result is
the (unique) stable descending-by-priority reordering, which `mergeSort`
computes. -/
def sortQueue (q : List IncomingEvent) : List IncomingEvent :=
  q.mergeSort priorityLe

/-- Per-instance state of an `EventRouter`.  Handlers are identified by a
registration id; their behaviour lives in a separate `hb` parameter so the
state stays first-order. -/
structure RouterState where
  handlers : List Nat
  queue : List IncomingEvent
  processing : Bool
deriving DecidableEq, Repr

/-- One `await handler(event)` invocation record. -/
structure Invocation where
  eventId : String
  handler : Nat
  threw : Bool
deriving DecidableEq, Repr

/-- A single `await handler(event)`: the behaviour map `hb` says whether the
handler raises on this event. -/
def invokeHandler (hb : Nat → String → Bool) (h : Nat) (e : IncomingEvent) :
    Except String Unit :=
  if hb h e.id then .error "handler error" else .ok ()

/-- The `for (const handler of this.handlers)` loop: each invocation is
wrapped in its own try/catch; an error is logged (`debug(...)`) and the loop
continues with the next handler. -/
def runHandlers (hb : Nat → String → Bool) (handlers : List Nat)
    (e : IncomingEvent) : List Invocation :=
  match handlers with
  | [] => []
  | h :: rest =>
    match invokeHandler hb h e with
    | .ok _ => { eventId := e.id, handler := h, threw := false } :: runHandlers hb rest e
    | .error _ => { eventId := e.id, handler := h, threw := true } :: runHandlers hb rest e

/-- The `while (this.queue.length > 0)` drain loop: events are shifted from the
front of the queue, one at a time, in queue order. -/
def drainQueue (hb : Nat → String → Bool) (handlers : List Nat) :
    List IncomingEvent → List Invocation
  | [] => []
  | e :: rest => runHandlers hb handlers e ++ drainQueue hb handlers rest

/-- `processQueue`: returns immediately when already processing (or the queue
is empty), otherwise drains the whole queue and resets the flag. -/
def processQueue (hb : Nat → String → Bool) (st : RouterState) :
    RouterState × List Invocation :=
  if st.processing then (st, [])
  else ({ st with queue := [], processing := false },
        drainQueue hb st.handlers st.queue)

/-- The result of one `dispatch` call: the returned id, the module-level dedup
set, the router instance state, and the handler invocations it performed. -/
structure DispatchOut where
  id : String
  seen : List (String × Nat)
  router : RouterState
  invocations : List Invocation
deriving Repr

/-- `EventRouter.dispatch`.  `freshUuid` stands for the `randomUUID()` draw;
the dedup set `seen` is module state shared by every router instance. -/
def dispatch (hb : Nat → String → Bool) (seen : List (String × Nat))
    (router : RouterState) (now : Nat) (raw : RawEvent)
    (correlationId : Option String) (freshUuid : String) : DispatchOut :=
  let id := correlationId.getD freshUuid
  let event := mkEvent raw id now
  let key := eventKey event
  if seenHas seen now key then
    { id := id, seen := seen, router := router, invocations := [] }
  else
    let seen2 := seen ++ [(key, now + DEDUP_TTL_MS)]
    let p := processQueue hb { router with queue := sortQueue (router.queue ++ [event]) }
    { id := id, seen := seen2, router := p.1, invocations := p.2 }

/-- The queue contents after a sequence of enqueue steps
(`this.queue.push(event); this.queue.sort(...)`), as they accumulate while a
`processQueue` drain is already in flight. -/
def queueAfterInserts (es : List IncomingEvent) : List IncomingEvent :=
  es.foldl (fun q e => sortQueue (q ++ [e])) []

/-- The priority the spec's (amended) table assigns to a raw event: an
explicit producer value wins; otherwise `message.sent ↦ 10`,
`task.scheduled ↦ 5`, `internal ↦ 8`, anything else `↦ 5`. -/
def specStampedPriority (raw : RawEvent) : Int :=
  match raw.priority with
  | some p => p
  | none =>
    if raw.type = "message.sent" then 10
    else if raw.type = "task.scheduled" then 5
    else if raw.type = "internal" then 8
    else 5

/-! ## MCP session manager (mcp-manager source, second document of
src/scripts/hash-password.ts)

The manager's async control flow is embedded as a deterministic event-loop
simulator.  A scenario is a list of `SimEv` events given in the order the
JavaScript event loop would run them: a `getSession` call runs synchronously
up to its first suspension point; `buildDone b` is the moment build `b`'s body
(store `getAll`, client creation, tool discovery, runner creation) finishes
and runs its tail; `timerFire b` is the `setTimeout` of the
`runWithTimeout` race around build `b` firing; `reload` runs a full `reload()`
call (its awaits are internal).  When a promise settles, the continuations of
its awaiters run in registration order — the caller that created the build
registered first, so its continuation runs before any waiter's. -/

/-- `DEFAULT_CONNECT_TIMEOUT_MS`. -/
def DEFAULT_CONNECT_TIMEOUT_MS : Nat := 300000

/-- `DEFAULT_CLOSE_TIMEOUT_MS`. -/
def DEFAULT_CLOSE_TIMEOUT_MS : Nat := 10000

/-- `McpManagerOptions`: each field is `undefined` (`none`), `null`
(`some none`) or a number (`some (some n)`). -/
structure McpManagerOptions where
  connectTimeoutMs : Option (Option Nat) := none
  closeTimeoutMs : Option (Option Nat) := none
deriving DecidableEq, Repr

/-- The constructor's resolution of `connectTimeoutMs`: only `undefined`
falls back to the default; `null` (`some none`) disables the timeout. -/
def resolveConnectTimeoutMs (o : Option McpManagerOptions) : Option Nat :=
  match o with
  | none => some DEFAULT_CONNECT_TIMEOUT_MS
  | some opts =>
    match opts.connectTimeoutMs with
    | none => some DEFAULT_CONNECT_TIMEOUT_MS
    | some v => v

/-- The constructor's resolution of `closeTimeoutMs`. -/
def resolveCloseTimeoutMs (o : Option McpManagerOptions) : Option Nat :=
  match o with
  | none => some DEFAULT_CLOSE_TIMEOUT_MS
  | some opts =>
    match opts.closeTimeoutMs with
    | none => some DEFAULT_CLOSE_TIMEOUT_MS
    | some v => v

/-- A session object as produced by `wrapSession`: `alloc` is its JS object
identity (each `wrapSession` call builds a fresh object literal), `generate`
identifies the runner's `generate` function it carries, `tools` identifies
the `cachedTools` array it captured (`none` = the initial/cleared empty
array, `some b` = the tools array built by build `b`). -/
structure McpSessionObj where
  alloc : Nat
  generate : Nat
  tools : Option Nat
deriving DecidableEq, Repr

/-- The manager's private fields.  `cachedMcpClients` holds client ids,
`cachedTools` the identity of the tools array (`none` = empty), `inFlight`
the id of the in-flight build promise. -/
structure McpManagerState where
  cachedSession : Option McpSessionObj
  cachedMcpClients : Option (List Nat)
  cachedTools : Option Nat
  inFlight : Option Nat
deriving DecidableEq, Repr

/-- How an awaited `getSession` promise settled: resolved with a session or
rejected with an error distinguished by its `name`/message. -/
inductive SessionOutcome where
  | ok (s : McpSessionObj)
  | err (name : String)
deriving DecidableEq, Repr

/-- Bookkeeping for one build started by `getSession`: the call that created
it, the calls awaiting `this.inFlight` (in registration order), how the
`runWithTimeout` race settled (if yet), and whether the build body has run to
completion. -/
structure BuildRec where
  bid : Nat
  creator : Nat
  waiters : List Nat
  settled : Option SessionOutcome
  bodyDone : Bool
deriving DecidableEq, Repr

/-- Observable Redis commands on the published tool list
(`DISCOVERED_TOOLS_KEY`). -/
inductive RedisOp where
  | setTools (tools : Option Nat)
  | delTools
deriving DecidableEq, Repr

/-- Observable steps of one `reload()` call, in execution order. -/
inductive ReloadAction where
  | clearCaches
  | closeClient (c : Nat) (threw : Bool)
  | redisDel
deriving DecidableEq, Repr

/-- Whether a `reload()` call returned normally or raised. -/
inductive ReloadOutcome where
  | ok
  | raised (msg : String)
deriving DecidableEq, Repr

/-- Simulator state: the manager's fields plus build bookkeeping, the
results delivered to `getSession` callers, the number of
`mcpConnectionsStore.getAll()` invocations, allocation counters, and the
observable Redis/reload traces. -/
structure SimSt where
  mgr : McpManagerState
  builds : List BuildRec
  results : List (Nat × SessionOutcome)
  getAllCalls : Nat
  nextBuild : Nat
  nextAlloc : Nat
  redisOps : List RedisOp
  reloadTraces : List (List ReloadAction)
  reloadReturns : List ReloadOutcome
deriving DecidableEq, Repr

/-- Environment of a scenario: the resolved timeout configuration, which
clients each build creates, and which client `close()` calls raise. -/
structure McpWorld where
  connectTimeoutMs : Option Nat
  closeTimeoutMs : Option Nat
  clientsFor : Nat → List Nat
  closeThrows : Nat → Bool

/-- Scenario events, in JavaScript event-loop order. -/
inductive SimEv where
  | getSession (cid : Nat)
  | buildDone (bid : Nat)
  | timerFire (bid : Nat)
  | reload (timedOut : Bool)
deriving DecidableEq, Repr

/-- `wrapSession`: builds a fresh object literal carrying the given
`generate` function and the manager's current `cachedTools` array. -/
def wrapSessionAlloc (st : SimSt) (generate : Nat) : McpSessionObj × SimSt :=
  (⟨st.nextAlloc, generate, st.mgr.cachedTools⟩,
   { st with nextAlloc := st.nextAlloc + 1 })

/-- Retry depth for the `return this.getSession()` tail call; the scenarios
proved below never reach the fuel bound. -/
def retryFuel : Nat := 4

/-- The synchronous part of one `getSession()` call (or of its
`return this.getSession()` retry): return a wrapper of the cached session,
or register on the in-flight build, or start a new build.  Starting a build
runs the build body synchronously up to its first await, so
`mcpConnectionsStore.getAll()` is invoked here. -/
def getSessionCall (w : McpWorld) : Nat → Nat → SimSt → SimSt
  | fuel, cid, st =>
    match st.mgr.cachedSession with
    | some s =>
      let ws := wrapSessionAlloc st s.generate
      { ws.2 with results := ws.2.results ++ [(cid, .ok ws.1)] }
    | none =>
      match st.mgr.inFlight with
      | some p =>
        match st.builds.find? (fun b => b.bid == p) with
        | none => st
        | some b =>
          match b.settled with
          | none =>
            { st with builds := st.builds.map fun b' =>
                if b'.bid == p then { b' with waiters := b'.waiters ++ [cid] } else b' }
          | some (.err n) => { st with results := st.results ++ [(cid, .err n)] }
          | some (.ok s) =>
            -- awaiting an already-settled promise: `this.cachedSession === session`
            -- fails here only if the cache no longer holds this session, in which
            -- case the source retries via `return this.getSession()`.
            if st.mgr.cachedSession = some s then
              let ws := wrapSessionAlloc st s.generate
              { ws.2 with results := ws.2.results ++ [(cid, .ok ws.1)] }
            else
              match fuel with
              | 0 => { st with results := st.results ++ [(cid, .err "retry fuel exhausted")] }
              | f + 1 => getSessionCall w f cid st
      | none =>
        let bid := st.nextBuild
        { st with
          mgr := { st.mgr with inFlight := some bid },
          builds := st.builds ++ [⟨bid, cid, [], none, false⟩],
          getAllCalls := st.getAllCalls + 1,
          nextBuild := bid + 1 }

/-- Continuation of the creator caller after `await this.inFlight` settles:
on success it caches the session, clears `inFlight` and publishes the tools
to Redis; on rejection (`catch`) it clears `inFlight` and rethrows to its
caller. -/
def creatorContinue (cid : Nat) (o : SessionOutcome) (st : SimSt) : SimSt :=
  match o with
  | .ok s =>
    { st with
      mgr := { st.mgr with cachedSession := some s, inFlight := none },
      redisOps := st.redisOps ++ [.setTools st.mgr.cachedTools],
      results := st.results ++ [(cid, .ok s)] }
  | .err n =>
    { st with
      mgr := { st.mgr with inFlight := none },
      results := st.results ++ [(cid, .err n)] }

/-- Continuation of a waiter after `await this.inFlight` settles: a rejection
propagates to the waiter's caller; a resolution is re-wrapped when the cache
still holds the same session object, otherwise the waiter retries
`getSession` from scratch. -/
def deliverToWaiter (w : McpWorld) (fuel : Nat) (cid : Nat) (o : SessionOutcome)
    (st : SimSt) : SimSt :=
  match o with
  | .err n => { st with results := st.results ++ [(cid, .err n)] }
  | .ok s =>
    if st.mgr.cachedSession = some s then
      let ws := wrapSessionAlloc st s.generate
      { ws.2 with results := ws.2.results ++ [(cid, .ok ws.1)] }
    else
      match fuel with
      | 0 => { st with results := st.results ++ [(cid, .err "retry fuel exhausted")] }
      | f + 1 => getSessionCall w f cid st

/-- Settling the race promise of build `bid` (at most once): mark it settled,
then run the awaiting continuations in registration order — creator first,
then the waiters. -/
def settleBuild (w : McpWorld) (fuel : Nat) (bid : Nat) (o : SessionOutcome)
    (st : SimSt) : SimSt :=
  match st.builds.find? (fun b => b.bid == bid) with
  | none => st
  | some b =>
    if b.settled.isSome then st
    else
      let st1 := { st with builds := st.builds.map fun b' =>
        if b'.bid == bid then { b' with settled := some o } else b' }
      let st2 := creatorContinue b.creator o st1
      b.waiters.foldl (fun acc cid => deliverToWaiter w fuel cid o acc) st2

/-- The tail of build `bid`'s body running at its natural completion: it
stores the created clients in `cachedMcpClients` and the discovered tools in
`cachedTools`, wraps a session object, and resolves the build promise.  If
the race already settled (timeout), the resolution is discarded —
`runWithTimeout` only attaches a no-op `catch` — but the cache writes above
have still happened. -/
def buildDoneStep (w : McpWorld) (fuel : Nat) (bid : Nat) (st : SimSt) : SimSt :=
  match st.builds.find? (fun b => b.bid == bid) with
  | none => st
  | some b =>
    if b.bodyDone then st
    else
      let st1 := { st with
        mgr := { st.mgr with
          cachedMcpClients := some (w.clientsFor bid),
          cachedTools := some bid },
        builds := st.builds.map fun b' =>
          if b'.bid == bid then { b' with bodyDone := true } else b' }
      let ws := wrapSessionAlloc st1 bid
      if b.settled.isSome then ws.2
      else settleBuild w fuel bid (.ok ws.1) ws.2

/-- The `runWithTimeout` timer firing for build `bid`: scheduled only when
`connectTimeoutMs` is not `null`, cleared once the race settles; otherwise it
rejects the race with the `TimeoutError`-named connect error. -/
def timerFireStep (w : McpWorld) (fuel : Nat) (bid : Nat) (st : SimSt) : SimSt :=
  match w.connectTimeoutMs with
  | none => st
  | some _ =>
    match st.builds.find? (fun b => b.bid == bid) with
    | none => st
    | some b =>
      if b.settled.isSome then st
      else settleBuild w fuel bid (.err "TimeoutError") st

/-- One `await client.close()` : raises for clients named by `closeThrows`. -/
def closeOne (closeThrows : Nat → Bool) (c : Nat) : Except String Unit :=
  if closeThrows c then .error "close failed" else .ok ()

/-- The `closeAll` loop of `reload`: each close is wrapped in its own
try/catch (the error is logged), so the loop itself never rejects. -/
def closeAll (closeThrows : Nat → Bool) : List Nat → List ReloadAction × Except String Unit
  | [] => ([], .ok ())
  | c :: rest =>
    let act := match closeOne closeThrows c with
      | .ok _ => ReloadAction.closeClient c false
      | .error _ => ReloadAction.closeClient c true
    let r := closeAll closeThrows rest
    (act :: r.1, r.2)

/-- `runWithTimeoutTask` applied to the close loop: with a `null` timeout the
task's own outcome is returned; otherwise a timed-out race rejects with the
`TimeoutError`-named close error. -/
def runWithTimeoutTaskModel (taskResult : Except String Unit)
    (timeoutMs : Option Nat) (timedOut : Bool) : Except String Unit :=
  match timeoutMs with
  | none => taskResult
  | some _ => if timedOut then .error "TimeoutError" else taskResult

/-- `McpManager.reload()`: reads the cached clients, clears all three caches
synchronously, then — when there are clients — awaits the timed close loop
inside a try/catch that only logs, and finally issues the Redis delete of the
published tool list (whose own failure paths are caught inside
`clearToolsFromRedis`; Redis is modelled as initialized).  Note the source
never touches `inFlight` here. -/
def reloadStep (w : McpWorld) (timedOut : Bool) (st : SimSt) : SimSt :=
  let clients := st.mgr.cachedMcpClients
  let st1 := { st with mgr := { st.mgr with
    cachedSession := none, cachedMcpClients := none, cachedTools := none } }
  match clients with
  | none =>
    { st1 with
      redisOps := st1.redisOps ++ [.delTools],
      reloadTraces := st1.reloadTraces ++ [[.clearCaches, .redisDel]],
      reloadReturns := st1.reloadReturns ++ [.ok] }
  | some [] =>
    { st1 with
      redisOps := st1.redisOps ++ [.delTools],
      reloadTraces := st1.reloadTraces ++ [[.clearCaches, .redisDel]],
      reloadReturns := st1.reloadReturns ++ [.ok] }
  | some (c :: cs) =>
    let closed := closeAll w.closeThrows (c :: cs)
    let raceRes := runWithTimeoutTaskModel closed.2 w.closeTimeoutMs timedOut
    -- `try { await runWithTimeoutTask(...) } catch (err) { debug(...) }`
    let outcome : ReloadOutcome := match raceRes with
      | .ok _ => .ok
      | .error _ => .ok
    { st1 with
      redisOps := st1.redisOps ++ [.delTools],
      reloadTraces := st1.reloadTraces ++ [[.clearCaches] ++ closed.1 ++ [.redisDel]],
      reloadReturns := st1.reloadReturns ++ [outcome] }

/-- One simulator step. -/
def simStep (w : McpWorld) (st : SimSt) (ev : SimEv) : SimSt :=
  match ev with
  | .getSession cid => getSessionCall w retryFuel cid st
  | .buildDone bid => buildDoneStep w retryFuel bid st
  | .timerFire bid => timerFireStep w retryFuel bid st
  | .reload timedOut => reloadStep w timedOut st

/-- A fresh manager: all caches empty, nothing in flight. -/
def initialSimSt : SimSt :=
  { mgr := { cachedSession := none, cachedMcpClients := none,
             cachedTools := none, inFlight := none },
    builds := [], results := [], getAllCalls := 0,
    nextBuild := 1, nextAlloc := 1,
    redisOps := [], reloadTraces := [], reloadReturns := [] }

/-- Run a scenario from a fresh manager. -/
def runSim (w : McpWorld) (evs : List SimEv) : SimSt :=
  evs.foldl (simStep w) initialSimSt

/-- A manager built with default options (`connectTimeoutMs` 300 000,
`closeTimeoutMs` 10 000); build `b` creates the single client `b`, and no
close raises. -/
def defaultWorld : McpWorld :=
  { connectTimeoutMs := resolveConnectTimeoutMs none
    closeTimeoutMs := resolveCloseTimeoutMs none
    clientsFor := fun b => [b]
    closeThrows := fun _ => false }

/-- A default-timeout world where build `b` creates clients `b` and `b + 100`
and the close behaviour is a parameter. -/
def closeWorld (ct : Nat → Bool) : McpWorld :=
  { connectTimeoutMs := resolveConnectTimeoutMs none
    closeTimeoutMs := resolveCloseTimeoutMs none
    clientsFor := fun b => [b, b + 100]
    closeThrows := ct }

/-- A world with an explicit finite connect timeout `T`. -/
def timeoutWorld (T : Nat) : McpWorld :=
  { connectTimeoutMs := resolveConnectTimeoutMs
      (some { connectTimeoutMs := some (some T) })
    closeTimeoutMs := resolveCloseTimeoutMs none
    clientsFor := fun b => [b]
    closeThrows := fun _ => false }

/-- A world whose connect timeout is `null` (disabled). -/
def noTimeoutWorld : McpWorld :=
  { connectTimeoutMs := resolveConnectTimeoutMs
      (some { connectTimeoutMs := some none })
    closeTimeoutMs := resolveCloseTimeoutMs none
    clientsFor := fun b => [b]
    closeThrows := fun _ => false }

/-- The C2 scenario: `n` `getSession` calls arrive in one event-loop turn,
then the single started build completes. -/
def concurrentCallsScenario (n : Nat) : List SimEv :=
  (List.range n).map SimEv.getSession ++ [SimEv.buildDone 1]

/-- The results the waiters of build 1 receive once it resolves: each gets a
fresh wrapper object (consecutive allocation ids starting at `a0`) around
build 1's `generate` function and tools array. -/
def waiterWrapsFrom (a0 : Nat) : List Nat → List (Nat × SessionOutcome)
  | [] => []
  | c :: rest => (c, .ok ⟨a0, 1, some 1⟩) :: waiterWrapsFrom (a0 + 1) rest

/-! ## Reload watch (reload-watch source, third document of
src/apps/backend/src/middleware/localhost-only.ts) -/

/-- `ReloadScope`. -/
inductive ReloadScope where
  | schedule
  | slack
  | whatsapp
  | mcp
deriving DecidableEq, Repr

/-- The scope's wire name. -/
def scopeName : ReloadScope → String
  | .schedule => "schedule"
  | .slack => "slack"
  | .whatsapp => "whatsapp"
  | .mcp => "mcp"

/-- The channel prefix constant (`CHANNEL_PREFIX` in the source). -/
def RELOAD_CHANNEL_BASE : String := "hooman:reload:"

/-- `channel(scope)`. -/
def channel (s : ReloadScope) : String := RELOAD_CHANNEL_BASE ++ scopeName s

/-- A pub/sub subscriber: its identity, the channels it currently holds, and
whether `close()` has been issued on it (closing a Redis subscriber
terminates all of its channel subscriptions). -/
structure Subscriber where
  sid : Nat
  channels : List String
  closed : Bool
deriving DecidableEq, Repr

/-- `subscriber.unsubscribe(ch)`. -/
def Subscriber.unsubscribeCh (sub : Subscriber) (ch : String) : Subscriber :=
  { sub with channels := sub.channels.filter (fun c => c != ch) }

/-- `subscriber.close()` (fire-and-forget in the source; modelled as taking
effect before anything later observes the subscriber). -/
def Subscriber.closeSub (sub : Subscriber) : Subscriber :=
  { sub with closed := true }

/-- The module state of the reload-watch module: the current `subscriber`
variable, the id counter for `createSubscriber`, and the final states of
subscribers that have been replaced (for observing what happened to them). -/
structure WatchState where
  subscriber : Option Subscriber
  nextSid : Nat
  retired : List Subscriber
deriving DecidableEq, Repr

/-- Calls `initReloadWatch` issues against the pub/sub layer, in order. -/
inductive WatchAction where
  | unsub (sid : Nat) (ch : String)
  | closeSub (sid : Nat)
  | newSub (sid : Nat)
  | sub (sid : Nat) (ch : String)
deriving DecidableEq, Repr

/-- `initReloadWatch(scopes, onReload)`: returns unchanged on an empty scope
list; otherwise, when a previous subscriber exists, issues
`unsubscribe(channel(s))` for each s in the NEW scope list against it, then
closes it; then (when `createSubscriber` succeeds, `canCreate`) creates a
fresh subscriber and subscribes it to each scope's channel. -/
def initReloadWatch (canCreate : Bool) (scopes : List ReloadScope)
    (st : WatchState) : WatchState × List WatchAction :=
  if scopes.isEmpty then (st, [])
  else
    let torn :=
      match st.subscriber with
      | some old =>
        let old2 := scopes.foldl
          (fun (s : Subscriber) sc => s.unsubscribeCh (channel sc)) old
        ({ st with
             subscriber := none
             retired := st.retired ++ [old2.closeSub] },
         scopes.map (fun sc => WatchAction.unsub old.sid (channel sc))
           ++ [WatchAction.closeSub old.sid])
      | none => (st, [])
    if canCreate then
      let sid := torn.1.nextSid
      let fresh : Subscriber := ⟨sid, scopes.map channel, false⟩
      ({ torn.1 with subscriber := some fresh, nextSid := sid + 1 },
       torn.2 ++ [WatchAction.newSub sid]
         ++ scopes.map (fun sc => WatchAction.sub sid (channel sc)))
    else (torn.1, torn.2)

/-- The unsubscribe calls occurring in a trace. -/
def tracedUnsubs (acts : List WatchAction) : List (Nat × String) :=
  acts.filterMap fun a =>
    match a with
    | .unsub s c => some (s, c)
    | _ => none

/-- A handler-behaviour map under which no handler throws (used to
instantiate concrete scenarios). -/
def hbNone : Nat → String → Bool := fun _ _ => false

/-- A concrete raw event for concrete scenarios. -/
def msgRaw : RawEvent := ⟨"slack", "message.sent", "42", none⟩

/-! ## Theorems

Helper lemmas first, then one theorem per claim (with its witness or
counterexample). -/

theorem priorityLe_trans :
    ∀ a b c : IncomingEvent,
      priorityLe a b = true → priorityLe b c = true → priorityLe a c = true := by
  intro a b c hab hbc
  simp only [priorityLe, decide_eq_true_eq] at *
  omega

theorem priorityLe_total :
    ∀ a b : IncomingEvent, (priorityLe a b || priorityLe b a) = true := by
  intro a b
  simp only [priorityLe, Bool.or_eq_true, decide_eq_true_eq]
  omega

/-- One enqueue-step sort leaves the queue sorted by priority, descending. -/
theorem pairwise_sortQueue (l : List IncomingEvent) :
    (sortQueue l).Pairwise (fun a b => prio b ≤ prio a) := by
  have h := @List.sorted_mergeSort IncomingEvent priorityLe
    priorityLe_trans priorityLe_total l
  exact h.imp fun hab => by simpa [priorityLe] using hab

/-- Stability of one enqueue-step sort: the subsequence selected by a filter
whose members all compare `priorityLe`-true with each other is untouched. -/
theorem filter_sortQueue (l : List IncomingEvent) (f : IncomingEvent → Bool)
    (hf : ∀ a b, f a = true → f b = true → priorityLe a b = true) :
    (sortQueue l).filter f = l.filter f := by
  have hperm : (sortQueue l).Perm l := List.mergeSort_perm l priorityLe
  have hpw : (l.filter f).Pairwise (fun a b => priorityLe a b = true) :=
    List.pairwise_of_forall_mem_list fun a ha b hb =>
      hf a b (List.mem_filter.mp ha).2 (List.mem_filter.mp hb).2
  have h1 : (l.filter f).Sublist (sortQueue l) :=
    List.sublist_mergeSort priorityLe_trans priorityLe_total hpw
      (List.filter_sublist l)
  have h2 : ((l.filter f).filter f).Sublist ((sortQueue l).filter f) :=
    h1.filter f
  have h3 : (l.filter f).filter f = l.filter f := by
    rw [List.filter_filter]
    simp
  rw [h3] at h2
  have hlen : ((sortQueue l).filter f).length = (l.filter f).length :=
    (hperm.filter f).length_eq
  exact (h2.eq_of_length hlen.symm).symm

/-- Sortedness is preserved across a whole sequence of enqueue steps. -/
theorem pairwise_insertFold (es : List IncomingEvent) (q : List IncomingEvent)
    (hq : q.Pairwise (fun a b => prio b ≤ prio a)) :
    (es.foldl (fun acc e => sortQueue (acc ++ [e])) q).Pairwise
      (fun a b => prio b ≤ prio a) := by
  induction es generalizing q with
  | nil => exact hq
  | cons e rest ih => exact ih _ (pairwise_sortQueue _)

/-- Stability across a whole sequence of enqueue steps: a filter class whose
members are mutually `priorityLe` keeps arrival order. -/
theorem filter_insertFold (es : List IncomingEvent) (q : List IncomingEvent)
    (f : IncomingEvent → Bool)
    (hf : ∀ a b, f a = true → f b = true → priorityLe a b = true) :
    (es.foldl (fun acc e => sortQueue (acc ++ [e])) q).filter f
      = q.filter f ++ es.filter f := by
  induction es generalizing q with
  | nil => simp
  | cons e rest ih =>
    rw [List.foldl_cons, ih, filter_sortQueue _ f hf, List.filter_append]
    cases hfe : f e <;> simp [List.filter_cons, hfe]

/-- The per-handler try/catch loop invokes every handler, recording exactly
which ones threw. -/
theorem runHandlers_eq (hb : Nat → String → Bool) (hs : List Nat)
    (e : IncomingEvent) :
    runHandlers hb hs e
      = hs.map fun h => { eventId := e.id, handler := h, threw := hb h e.id } := by
  induction hs with
  | nil => rfl
  | cons h rest ih =>
    simp only [runHandlers, invokeHandler, List.map_cons]
    cases hbe : hb h e.id <;> simp [hbe, ih]

/-- The drain loop delivers every queued event to every handler, in queue
order then registration order. -/
theorem drainQueue_eq (hb : Nat → String → Bool) (hs : List Nat)
    (q : List IncomingEvent) :
    drainQueue hb hs q
      = q.flatMap fun e =>
          hs.map fun h => { eventId := e.id, handler := h, threw := hb h e.id } := by
  induction q with
  | nil => rfl
  | cons e rest ih => simp [drainQueue, runHandlers_eq, ih]

/-- The dedup key `dispatch` computes for its constructed event is the raw
event's key. -/
theorem eventKey_mkEvent (raw : RawEvent) (id : String) (now : Nat) :
    eventKey (mkEvent raw id now) = rawKey raw := rfl

/-- A `dispatch` whose key is live in the dedup set returns its own id and
changes nothing. -/
theorem dispatch_hit (hb : Nat → String → Bool) (seen : List (String × Nat))
    (r : RouterState) (now : Nat) (raw : RawEvent) (cid : Option String)
    (u : String) (h : seenHas seen now (rawKey raw) = true) :
    dispatch hb seen r now raw cid u
      = { id := cid.getD u, seen := seen, router := r, invocations := [] } := by
  simp only [dispatch, eventKey_mkEvent, h, if_true]

/-- A `dispatch` whose key is not live registers the key with a
`DEDUP_TTL_MS` expiry and enqueues the constructed event. -/
theorem dispatch_miss (hb : Nat → String → Bool) (seen : List (String × Nat))
    (r : RouterState) (now : Nat) (raw : RawEvent) (cid : Option String)
    (u : String) (h : seenHas seen now (rawKey raw) = false) :
    dispatch hb seen r now raw cid u
      = { id := cid.getD u
          seen := seen ++ [(rawKey raw, now + DEDUP_TTL_MS)]
          router := (processQueue hb { r with
            queue := sortQueue (r.queue ++ [mkEvent raw (cid.getD u) now]) }).1
          invocations := (processQueue hb { r with
            queue := sortQueue (r.queue ++ [mkEvent raw (cid.getD u) now]) }).2 } := by
  simp only [dispatch, eventKey_mkEvent, h, if_false, Bool.false_eq_true]

/-- A key registered at `now1` is still live at any `now2` inside the dedup
window. -/
theorem seenHas_registered (seen : List (String × Nat)) (k : String)
    (now1 now2 : Nat) (h2 : now2 < now1 + DEDUP_TTL_MS) :
    seenHas (seen ++ [(k, now1 + DEDUP_TTL_MS)]) now2 k = true := by
  simp [seenHas, List.any_append, h2]

/-- Raw events with equal source, type and serialized payload share their
dedup key. -/
theorem rawKey_congr (raw1 raw2 : RawEvent) (hs : raw2.source = raw1.source)
    (ht : raw2.type = raw1.type) (hp : raw2.payload = raw1.payload) :
    rawKey raw2 = rawKey raw1 := by
  simp [rawKey, hs, ht, hp]

/-- C1 (counterexample).  The claim states that the second of two coalesced
`dispatch` calls returns the first call's id; in the source the dedup branch
returns the id freshly computed for the second call
(`options?.correlationId ?? randomUUID()`), so the two calls return their own
distinct ids. -/
theorem dispatch_dedup_return_id_counterexample :
    (dispatch hbNone [] ⟨[7], [], false⟩ 0 msgRaw none "uuid-a").id = "uuid-a"
    ∧ (dispatch hbNone
        ((dispatch hbNone [] ⟨[7], [], false⟩ 0 msgRaw none "uuid-a").seen)
        ((dispatch hbNone [] ⟨[7], [], false⟩ 0 msgRaw none "uuid-a").router)
        1000 msgRaw none "uuid-b").id = "uuid-b"
    ∧ ("uuid-b" : String) ≠ "uuid-a" := by decide

/-- C1 (amended).  Two events with equal (source, type, serialized payload)
dispatched within the 60-second dedup window are coalesced: only the first is
enqueued; the second `dispatch` returns without touching the dedup set, the
queue or the handlers, and yields its own id — its `correlationId` if
supplied, otherwise its own fresh UUID — not the first call's id. -/
theorem dispatch_dedup_coalesces (hb : Nat → String → Bool)
    (seen : List (String × Nat)) (r : RouterState) (now1 now2 : Nat)
    (raw1 raw2 : RawEvent) (cid1 cid2 : Option String) (u1 u2 : String)
    (hs : raw2.source = raw1.source) (ht : raw2.type = raw1.type)
    (hp : raw2.payload = raw1.payload)
    (h1 : seenHas seen now1 (rawKey raw1) = false)
    (h2 : now2 < now1 + DEDUP_TTL_MS) :
    (dispatch hb seen r now1 raw1 cid1 u1).id = cid1.getD u1
    ∧ (dispatch hb seen r now1 raw1 cid1 u1).seen
        = seen ++ [(rawKey raw1, now1 + DEDUP_TTL_MS)]
    ∧ (r.processing = true →
        (dispatch hb seen r now1 raw1 cid1 u1).router.queue
          = sortQueue (r.queue ++ [mkEvent raw1 (cid1.getD u1) now1]))
    ∧ (dispatch hb (dispatch hb seen r now1 raw1 cid1 u1).seen
          (dispatch hb seen r now1 raw1 cid1 u1).router now2 raw2 cid2 u2)
        = { id := cid2.getD u2
            seen := (dispatch hb seen r now1 raw1 cid1 u1).seen
            router := (dispatch hb seen r now1 raw1 cid1 u1).router
            invocations := [] } := by
  have hd1 := dispatch_miss hb seen r now1 raw1 cid1 u1 h1
  have hlive : seenHas (dispatch hb seen r now1 raw1 cid1 u1).seen now2
      (rawKey raw2) = true := by
    rw [hd1, rawKey_congr raw1 raw2 hs ht hp]
    exact seenHas_registered seen (rawKey raw1) now1 now2 h2
  have hd2 := dispatch_hit hb (dispatch hb seen r now1 raw1 cid1 u1).seen
    (dispatch hb seen r now1 raw1 cid1 u1).router now2 raw2 cid2 u2 hlive
  refine ⟨by rw [hd1], by rw [hd1], ?_, hd2⟩
  intro hproc
  rw [hd1]
  simp [processQueue, hproc]

/-- C1 witness: the amended behaviour at a concrete input. -/
theorem dispatch_dedup_coalesces_witness :
    seenHas [] 0 (rawKey msgRaw) = false
    ∧ (1000 : Nat) < 0 + DEDUP_TTL_MS
    ∧ (dispatch hbNone
        ((dispatch hbNone [] ⟨[7], [], false⟩ 0 msgRaw none "uuid-a").seen)
        ((dispatch hbNone [] ⟨[7], [], false⟩ 0 msgRaw none "uuid-a").router)
        1000 msgRaw none "uuid-b").invocations = [] :=
  ⟨by decide, by decide, by
    have h := (dispatch_dedup_coalesces hbNone [] ⟨[7], [], false⟩ 0 1000
      msgRaw msgRaw none none "uuid-a" "uuid-b" rfl rfl rfl (by decide)
      (by decide)).2.2.2
    rw [h]⟩

/-- C5.  Across any arrival sequence, the accumulated queue is sorted by
priority descending (so a strictly higher-priority event is delivered
first), events of equal priority keep arrival order (per-insertion stable
reordering), and the drain loop delivers events in queue order. -/
theorem queue_priority_order_stable (es : List IncomingEvent) (p : Int)
    (hb : Nat → String → Bool) (h : Nat) :
    (queueAfterInserts es).Pairwise (fun a b => prio b ≤ prio a)
    ∧ (queueAfterInserts es).filter (fun e => prio e == p)
        = es.filter (fun e => prio e == p)
    ∧ (drainQueue hb [h] (queueAfterInserts es)).map Invocation.eventId
        = (queueAfterInserts es).map IncomingEvent.id := by
  refine ⟨pairwise_insertFold es [] List.Pairwise.nil, ?_, ?_⟩
  · have hf : ∀ a b : IncomingEvent,
        (prio a == p) = true → (prio b == p) = true → priorityLe a b = true := by
      intro a b ha hb2
      rw [beq_iff_eq] at ha hb2
      simp [priorityLe, ha, hb2]
    simpa using filter_insertFold es [] (fun e => prio e == p) hf
  · generalize queueAfterInserts es = q
    induction q with
    | nil => rfl
    | cons e rest ih => simp [drainQueue, runHandlers_eq, ih]

/-- C6 (counterexample).  The claim maps every type other than
`message.sent` and `task.scheduled` to priority 5, but the source's
`DEFAULT_PRIORITY` table also contains `internal: 8`: an `internal` event
with no explicit priority is stamped 8, and enqueued as such. -/
theorem internal_priority_counterexample :
    (mkEvent ⟨"scheduler", "internal", "x", none⟩ "u1" 0).priority = some 8
    ∧ (dispatch hbNone [] ⟨[], [], true⟩ 0 ⟨"scheduler", "internal", "x", none⟩
        none "u1").router.queue
        = [mkEvent ⟨"scheduler", "internal", "x", none⟩ "u1" 0]
    ∧ some (8 : Int) ≠ some (5 : Int) := by
  refine ⟨by decide, ?_, by decide⟩
  rw [dispatch_miss hbNone [] ⟨[], [], true⟩ 0
    ⟨"scheduler", "internal", "x", none⟩ none "u1" (by decide)]
  simp [processQueue, sortQueue]

/-- C6 (amended).  The stamped priority is the producer's explicit value when
given; otherwise it comes from the static table `message.sent ↦ 10`,
`task.scheduled ↦ 5`, `internal ↦ 8`, and every other type `↦ 5`; the
stamped event is what `dispatch` enqueues. -/
theorem dispatch_priority_table (raw : RawEvent) (id : String) (now : Nat)
    (hb : Nat → String → Bool) (seen : List (String × Nat)) (r : RouterState)
    (cid : Option String) (u : String)
    (h1 : seenHas seen now (rawKey raw) = false)
    (h2 : r.processing = true) :
    (mkEvent raw id now).priority = some (specStampedPriority raw)
    ∧ (dispatch hb seen r now raw cid u).router.queue
        = sortQueue (r.queue ++ [mkEvent raw (cid.getD u) now]) := by
  constructor
  · cases hpr : raw.priority with
    | some p => simp [mkEvent, normalizePriority, specStampedPriority, hpr]
    | none =>
      simp only [mkEvent, normalizePriority, specStampedPriority, hpr,
        DEFAULT_PRIORITY]
      split_ifs <;> rfl
  · rw [dispatch_miss hb seen r now raw cid u h1]
    simp [processQueue, h2]

/-- C6 witness: the amended behaviour at a concrete input. -/
theorem dispatch_priority_table_witness :
    seenHas [] 5 (rawKey msgRaw) = false
    ∧ (mkEvent msgRaw "u9" 5).priority = some (specStampedPriority msgRaw) :=
  ⟨by decide,
   (dispatch_priority_table msgRaw "u9" 5 hbNone [] ⟨[], [], true⟩ none "u9"
      (by decide) rfl).1⟩

/-- C7.  Handler failures are isolated: the drain loop invokes every
registered handler on every queued event, in order, whatever throws; the
router state afterwards does not depend on which handlers threw; and
`dispatch` always returns the event id to the producer — handler errors
never reach it. -/
theorem handler_errors_isolated (hb : Nat → String → Bool) (hs : List Nat)
    (q : List IncomingEvent) :
    (processQueue hb ⟨hs, q, false⟩).2
      = (q.flatMap fun e =>
          hs.map fun hh => { eventId := e.id, handler := hh, threw := hb hh e.id })
    ∧ (processQueue hb ⟨hs, q, false⟩).1 = ⟨hs, [], false⟩
    ∧ ∀ (seen : List (String × Nat)) (r : RouterState) (now : Nat)
        (raw : RawEvent) (cid : Option String) (u : String),
        (dispatch hb seen r now raw cid u).id = cid.getD u := by
  refine ⟨?_, rfl, ?_⟩
  · simp [processQueue, drainQueue_eq]
  · intro seen r now raw cid u
    by_cases hk : seenHas seen now (rawKey raw) = true
    · rw [dispatch_hit hb seen r now raw cid u hk]
    · rw [dispatch_miss hb seen r now raw cid u (by simpa using hk)]

/-- C10.  The dedup set is module-level state shared by all router
instances: after one instance dispatches an event, a dispatch of an event
with equal (source, type, serialized payload) on any other instance within
the window returns its own id without enqueuing anything on that instance's
queue, without invoking its handlers, and without touching the shared set. -/
theorem dedup_shared_across_routers (hb : Nat → String → Bool)
    (seen : List (String × Nat)) (rA rB : RouterState) (now1 now2 : Nat)
    (raw1 raw2 : RawEvent) (cid2 : Option String) (u1 u2 : String)
    (hs : raw2.source = raw1.source) (ht : raw2.type = raw1.type)
    (hp : raw2.payload = raw1.payload)
    (h1 : seenHas seen now1 (rawKey raw1) = false)
    (h2 : now2 < now1 + DEDUP_TTL_MS) :
    dispatch hb (dispatch hb seen rA now1 raw1 none u1).seen rB now2 raw2
        cid2 u2
      = { id := cid2.getD u2
          seen := (dispatch hb seen rA now1 raw1 none u1).seen
          router := rB
          invocations := [] } := by
  have hd1 := dispatch_miss hb seen rA now1 raw1 none u1 h1
  have hlive : seenHas (dispatch hb seen rA now1 raw1 none u1).seen now2
      (rawKey raw2) = true := by
    rw [hd1, rawKey_congr raw1 raw2 hs ht hp]
    exact seenHas_registered seen (rawKey raw1) now1 now2 h2
  exact dispatch_hit hb _ rB now2 raw2 cid2 u2 hlive

/-- Registering further concurrent `getSession` callers while build 1 is in
flight only appends them to its waiter list. -/
theorem reg_fold (cids : List Nat) (ws : List Nat) (cmc : Option (List Nat))
    (ct2 : Option Nat) (rs : List (Nat × SessionOutcome)) (ga nb na : Nat)
    (ro : List RedisOp) (rt : List (List ReloadAction))
    (rr : List ReloadOutcome) :
    cids.foldl (fun acc c => simStep defaultWorld acc (SimEv.getSession c))
      ⟨⟨none, cmc, ct2, some 1⟩, [⟨1, 0, ws, none, false⟩], rs, ga, nb, na,
        ro, rt, rr⟩
      = ⟨⟨none, cmc, ct2, some 1⟩, [⟨1, 0, ws ++ cids, none, false⟩], rs, ga,
          nb, na, ro, rt, rr⟩ := by
  induction cids generalizing ws with
  | nil => simp
  | cons c rest ih =>
    rw [List.foldl_cons]
    have hstep : simStep defaultWorld
        ⟨⟨none, cmc, ct2, some 1⟩, [⟨1, 0, ws, none, false⟩], rs, ga, nb, na,
          ro, rt, rr⟩ (SimEv.getSession c)
        = ⟨⟨none, cmc, ct2, some 1⟩, [⟨1, 0, ws ++ [c], none, false⟩], rs, ga,
            nb, na, ro, rt, rr⟩ := rfl
    rw [hstep, ih]
    simp

/-- Once build 1 resolves, each waiter's continuation sees the cached
session, wraps it in a fresh object and returns; allocation ids advance one
per waiter. -/
theorem deliver_fold (cids : List Nat) (cmc : Option (List Nat))
    (bs : List BuildRec) (rs : List (Nat × SessionOutcome)) (ga nb na : Nat)
    (ro : List RedisOp) (rt : List (List ReloadAction))
    (rr : List ReloadOutcome) :
    cids.foldl
      (fun acc cid =>
        deliverToWaiter defaultWorld retryFuel cid (.ok ⟨1, 1, some 1⟩) acc)
      ⟨⟨some ⟨1, 1, some 1⟩, cmc, some 1, none⟩, bs, rs, ga, nb, na, ro, rt, rr⟩
      = ⟨⟨some ⟨1, 1, some 1⟩, cmc, some 1, none⟩, bs,
          rs ++ waiterWrapsFrom na cids, ga, nb, na + cids.length, ro, rt, rr⟩ := by
  induction cids generalizing rs na with
  | nil => simp [waiterWrapsFrom]
  | cons c rest ih =>
    rw [List.foldl_cons]
    have hstep : deliverToWaiter defaultWorld retryFuel c (.ok ⟨1, 1, some 1⟩)
        ⟨⟨some ⟨1, 1, some 1⟩, cmc, some 1, none⟩, bs, rs, ga, nb, na, ro, rt, rr⟩
        = ⟨⟨some ⟨1, 1, some 1⟩, cmc, some 1, none⟩, bs,
            rs ++ [(c, .ok ⟨na, 1, some 1⟩)], ga, nb, na + 1, ro, rt, rr⟩ := rfl
    rw [hstep, ih]
    congr 1
    · simp [waiterWrapsFrom]
    · simp only [List.length_cons]
      omega

/-- The completion of build 1's body: cache writes, session allocation,
resolution, and delivery to the creator and all registered waiters. -/
theorem build_done_fold (ws : List Nat) :
    simStep defaultWorld
      ⟨⟨none, none, none, some 1⟩, [⟨1, 0, ws, none, false⟩], [], 1, 2, 1,
        [], [], []⟩ (SimEv.buildDone 1)
      = ⟨⟨some ⟨1, 1, some 1⟩, some [1], some 1, none⟩,
          [⟨1, 0, ws, some (.ok ⟨1, 1, some 1⟩), true⟩],
          (0, .ok ⟨1, 1, some 1⟩) :: waiterWrapsFrom 2 ws,
          1, 2, 2 + ws.length, [.setTools (some 1)], [], []⟩ := by
  have h1 : simStep defaultWorld
      ⟨⟨none, none, none, some 1⟩, [⟨1, 0, ws, none, false⟩], [], 1, 2, 1,
        [], [], []⟩ (SimEv.buildDone 1)
      = ws.foldl
          (fun acc cid =>
            deliverToWaiter defaultWorld retryFuel cid (.ok ⟨1, 1, some 1⟩) acc)
          ⟨⟨some ⟨1, 1, some 1⟩, some [1], some 1, none⟩,
            [⟨1, 0, ws, some (.ok ⟨1, 1, some 1⟩), true⟩],
            [(0, .ok ⟨1, 1, some 1⟩)], 1, 2, 2, [.setTools (some 1)], [], []⟩ := rfl
  rw [h1, deliver_fold]
  simp

/-- Closed form of the C2 scenario with `k + 1` concurrent callers. -/
theorem mcp_single_build_state (k : Nat) :
    runSim defaultWorld (concurrentCallsScenario (k + 1))
      = ⟨⟨some ⟨1, 1, some 1⟩, some [1], some 1, none⟩,
          [⟨1, 0, (List.range k).map Nat.succ, some (.ok ⟨1, 1, some 1⟩), true⟩],
          (0, .ok ⟨1, 1, some 1⟩)
            :: waiterWrapsFrom 2 ((List.range k).map Nat.succ),
          1, 2, 2 + ((List.range k).map Nat.succ).length,
          [.setTools (some 1)], [], []⟩ := by
  show ((List.range (k + 1)).map SimEv.getSession ++ [SimEv.buildDone 1]).foldl
      (simStep defaultWorld) initialSimSt = _
  rw [List.foldl_append, List.foldl_cons, List.foldl_nil,
    List.range_succ_eq_map, List.map_cons, List.foldl_cons]
  have h0 : simStep defaultWorld initialSimSt (SimEv.getSession 0)
      = ⟨⟨none, none, none, some 1⟩, [⟨1, 0, [], none, false⟩], [], 1, 2, 1,
          [], [], []⟩ := rfl
  rw [h0, List.foldl_map, reg_fold, List.nil_append, build_done_fold]

/-- Each waiter result is a successful session wrap of build 1. -/
theorem waiterWrapsFrom_mem (cids : List Nat) (a : Nat)
    (r : Nat × SessionOutcome) (hr : r ∈ waiterWrapsFrom a cids) :
    ∃ s, r.2 = SessionOutcome.ok s ∧ s.generate = 1 ∧ s.tools = some 1 := by
  induction cids generalizing a with
  | nil => simp [waiterWrapsFrom] at hr
  | cons c rest ih =>
    simp only [waiterWrapsFrom, List.mem_cons] at hr
    rcases hr with h | h
    · exact ⟨⟨a, 1, some 1⟩, by simp [h]⟩
    · exact ih _ h

/-- One result per waiter. -/
theorem waiterWrapsFrom_length (cids : List Nat) (a : Nat) :
    (waiterWrapsFrom a cids).length = cids.length := by
  induction cids generalizing a with
  | nil => rfl
  | cons c rest ih => simp [waiterWrapsFrom, ih]

/-- C2 (counterexample).  The claim says all concurrent callers resolve to
the same session instance; in the source the creator caller returns the
session object built by `build` while each waiter returns a fresh
`wrapSession` object literal, so two concurrent callers receive distinct
object instances (distinct allocations 1 and 2, though around the same
build). -/
theorem mcp_distinct_session_instances_counterexample :
    (runSim defaultWorld (concurrentCallsScenario 2)).results
      = [(0, .ok ⟨1, 1, some 1⟩), (1, .ok ⟨2, 1, some 1⟩)]
    ∧ (⟨1, 1, some 1⟩ : McpSessionObj) ≠ ⟨2, 1, some 1⟩ := by decide

/-- C2 (amended).  N concurrent `getSession` callers arriving before any
build completes trigger exactly one build (the connections store's `getAll`
runs once and only one build record ever exists); every caller resolves
successfully to a session backed by that single build — the same `generate`
function and the same tools array — though the waiters receive fresh wrapper
objects rather than the creator's identical instance. -/
theorem mcp_concurrent_getSession_single_build (n : Nat) (hn : 1 ≤ n) :
    (runSim defaultWorld (concurrentCallsScenario n)).getAllCalls = 1
    ∧ (runSim defaultWorld (concurrentCallsScenario n)).builds.length = 1
    ∧ (runSim defaultWorld (concurrentCallsScenario n)).results.length = n
    ∧ ∀ r ∈ (runSim defaultWorld (concurrentCallsScenario n)).results,
        ∃ s, r.2 = SessionOutcome.ok s ∧ s.generate = 1 ∧ s.tools = some 1 := by
  obtain ⟨k, rfl⟩ : ∃ k, n = k + 1 := ⟨n - 1, by omega⟩
  rw [mcp_single_build_state k]
  refine ⟨rfl, rfl, ?_, ?_⟩
  · simp [waiterWrapsFrom_length]
  · intro r hr
    rcases List.mem_cons.mp hr with h | h
    · exact ⟨⟨1, 1, some 1⟩, by simp [h]⟩
    · exact waiterWrapsFrom_mem _ 2 r h

/-- C2 witness: three concurrent callers, one build. -/
theorem mcp_concurrent_getSession_single_build_witness :
    1 ≤ 3
    ∧ (runSim defaultWorld (concurrentCallsScenario 3)).getAllCalls = 1 :=
  ⟨by decide, (mcp_concurrent_getSession_single_build 3 (by decide)).1⟩

/-- C3.  The constructor defaults the connect timeout to 300 000 ms and
`null` disables it; when the timer fires before the build body completes,
the `getSession` caller rejects with the `TimeoutError`-named error, the
cache is left unpoisoned (nothing cached, nothing in flight), and a later
`getSession` starts a fresh build (a second `getAll`) that succeeds once the
store responds; with a `null` timeout the same build completes normally. -/
theorem mcp_build_timeout_recovery (T : Nat) :
    resolveConnectTimeoutMs none = some 300000
    ∧ resolveConnectTimeoutMs (some { connectTimeoutMs := some none }) = none
    ∧ (runSim (timeoutWorld T) [.getSession 0, .timerFire 1]).results
        = [(0, .err "TimeoutError")]
    ∧ (runSim (timeoutWorld T) [.getSession 0, .timerFire 1]).mgr
        = ⟨none, none, none, none⟩
    ∧ (runSim (timeoutWorld T)
        [.getSession 0, .timerFire 1, .getSession 1, .buildDone 1,
          .buildDone 2]).results
        = [(0, .err "TimeoutError"), (1, .ok ⟨2, 2, some 2⟩)]
    ∧ (runSim (timeoutWorld T)
        [.getSession 0, .timerFire 1, .getSession 1, .buildDone 1,
          .buildDone 2]).getAllCalls = 2
    ∧ (runSim noTimeoutWorld [.getSession 0, .timerFire 1, .buildDone 1]).results
        = [(0, .ok ⟨1, 1, some 1⟩)] :=
  ⟨rfl, rfl, rfl, rfl, rfl, rfl, rfl⟩

/-- The close loop records one close per client — a raising close is caught
and logged — and never rejects. -/
theorem closeAll_eq (ct : Nat → Bool) (cs : List Nat) :
    closeAll ct cs
      = (cs.map (fun c => ReloadAction.closeClient c (ct c)), Except.ok ()) := by
  induction cs with
  | nil => rfl
  | cons c rest ih =>
    simp only [closeAll, closeOne, ih, List.map_cons]
    cases hc : ct c <;> simp [hc]

/-- `reload` on a manager with cached clients: caches are cleared first,
every client close is attempted, any raced timeout is swallowed, and the
Redis delete is issued; the call returns normally and `inFlight` is not
touched. -/
theorem reloadStep_run (w : McpWorld) (tmo : Bool) (cs0 : Option McpSessionObj)
    (c : Nat) (cs : List Nat) (ct2 : Option Nat) (inf : Option Nat)
    (bs : List BuildRec) (rs : List (Nat × SessionOutcome)) (ga nb na : Nat)
    (ro : List RedisOp) (rt : List (List ReloadAction))
    (rr : List ReloadOutcome) :
    reloadStep w tmo
      ⟨⟨cs0, some (c :: cs), ct2, inf⟩, bs, rs, ga, nb, na, ro, rt, rr⟩
      = ⟨⟨none, none, none, inf⟩, bs, rs, ga, nb, na, ro ++ [.delTools],
          rt ++ [[.clearCaches] ++ (closeAll w.closeThrows (c :: cs)).1
            ++ [.redisDel]],
          rr ++ [.ok]⟩ := by
  cases hr : runWithTimeoutTaskModel (closeAll w.closeThrows (c :: cs)).2
      w.closeTimeoutMs tmo <;>
    simp [reloadStep, hr]

/-- C4.  `reload` never throws: whatever the close outcomes and whether the
close loop timed out, it returns normally having cleared all three caches —
the clear happens before any close is awaited — and having issued the Redis
delete of the published tool list; a subsequent `getSession` triggers a new
build (a second `getAll`). -/
theorem mcp_reload_clears_regardless (ct : Nat → Bool) (tmo : Bool) :
    (runSim (closeWorld ct)
        [.getSession 0, .buildDone 1, .reload tmo]).reloadReturns = [.ok]
    ∧ (runSim (closeWorld ct) [.getSession 0, .buildDone 1, .reload tmo]).mgr
        = ⟨none, none, none, none⟩
    ∧ (runSim (closeWorld ct)
        [.getSession 0, .buildDone 1, .reload tmo]).reloadTraces
        = [[.clearCaches, .closeClient 1 (ct 1), .closeClient 101 (ct 101),
            .redisDel]]
    ∧ (runSim (closeWorld ct)
        [.getSession 0, .buildDone 1, .reload tmo]).redisOps
        = [.setTools (some 1), .delTools]
    ∧ (runSim (closeWorld ct)
        [.getSession 0, .buildDone 1, .reload tmo, .getSession 1]).getAllCalls
        = 2 := by
  have hpre : runSim (closeWorld ct) [.getSession 0, .buildDone 1]
      = ⟨⟨some ⟨1, 1, some 1⟩, some [1, 101], some 1, none⟩,
          [⟨1, 0, [], some (.ok ⟨1, 1, some 1⟩), true⟩],
          [(0, .ok ⟨1, 1, some 1⟩)], 1, 2, 2, [.setTools (some 1)], [], []⟩ := rfl
  have h3 : runSim (closeWorld ct) [.getSession 0, .buildDone 1, .reload tmo]
      = reloadStep (closeWorld ct) tmo
          (runSim (closeWorld ct) [.getSession 0, .buildDone 1]) := rfl
  have hcw : (closeWorld ct).closeThrows = ct := rfl
  have hrel : runSim (closeWorld ct) [.getSession 0, .buildDone 1, .reload tmo]
      = ⟨⟨none, none, none, none⟩,
          [⟨1, 0, [], some (.ok ⟨1, 1, some 1⟩), true⟩],
          [(0, .ok ⟨1, 1, some 1⟩)], 1, 2, 2,
          [.setTools (some 1), .delTools],
          [[.clearCaches, .closeClient 1 (ct 1), .closeClient 101 (ct 101),
            .redisDel]],
          [.ok]⟩ := by
    rw [h3, hpre, reloadStep_run, hcw, closeAll_eq]
    simp
  refine ⟨?_, ?_, ?_, ?_, ?_⟩
  · rw [hrel]
  · rw [hrel]
  · rw [hrel]
  · rw [hrel]
  · have h4 : runSim (closeWorld ct)
        [.getSession 0, .buildDone 1, .reload tmo, .getSession 1]
        = simStep (closeWorld ct)
            (runSim (closeWorld ct) [.getSession 0, .buildDone 1, .reload tmo])
            (SimEv.getSession 1) := rfl
    rw [h4, hrel]
    rfl

/-- C8 (counterexample).  The claim says a timed-out build's late completion
leaves the cached connection clients and cached tools unchanged; after the
timeout and a reload cleared them tmo `none`/empty, the late build body's
assignments overwrite both. -/
theorem mcp_late_build_cache_counterexample :
    (runSim (timeoutWorld 10)
        [.getSession 0, .timerFire 1, .reload false,
          .buildDone 1]).mgr.cachedMcpClients = some [1]
    ∧ (runSim (timeoutWorld 10)
        [.getSession 0, .timerFire 1, .reload false,
          .buildDone 1]).mgr.cachedTools = some 1
    ∧ (some [1] : Option (List Nat)) ≠ none
    ∧ (some 1 : Option Nat) ≠ none := by decide

/-- C8 (amended).  After a timeout rejection and a reload, the never-cancelled
build still runs tmo completion; its session is discarded silently — delivered
tmo no caller, with `cachedSession` and `inFlight` left alone — but its body's
final assignments do overwrite `cachedMcpClients` and `cachedTools` with the
late build's clients and tools. -/
theorem mcp_late_build_records (tmo : Bool) (T : Nat) :
    (runSim (timeoutWorld T)
        [.getSession 0, .timerFire 1, .reload tmo, .buildDone 1]).results
        = [(0, .err "TimeoutError")]
    ∧ (runSim (timeoutWorld T)
        [.getSession 0, .timerFire 1, .reload tmo, .buildDone 1]).mgr
        = ⟨none, some [1], some 1, none⟩
    ∧ (runSim (timeoutWorld T)
        [.getSession 0, .timerFire 1, .reload tmo, .buildDone 1]).builds
        = [⟨1, 0, [], some (.err "TimeoutError"), true⟩] :=
  ⟨rfl, rfl, rfl⟩

/-- C9 (counterexample).  The claim says re-subscribing unsubscribes each
previously-held scope; the source instead issues unsubscribes for each scope
of the NEW scope list against the old subscriber: replacing a subscription
held on `slack` by one on `mcp` unsubscribes `mcp`, never `slack`. -/
theorem watch_unsub_targets_counterexample :
    channel ReloadScope.slack
        ∈ (Subscriber.mk 0 [channel ReloadScope.slack] false).channels
    ∧ tracedUnsubs (initReloadWatch true [ReloadScope.mcp]
        ⟨some ⟨0, [channel ReloadScope.slack], false⟩, 1, []⟩).2
        = [(0, channel ReloadScope.mcp)]
    ∧ (0, channel ReloadScope.slack) ∉ tracedUnsubs (initReloadWatch true
        [ReloadScope.mcp]
        ⟨some ⟨0, [channel ReloadScope.slack], false⟩, 1, []⟩).2 := by decide

/-- C9 (amended).  With a nonempty scope list and an existing subscription,
`initReloadWatch` tears the old subscription down before establishing the new
one — but by issuing unsubscribes for each scope of the new scope list
against the old subscriber and then closing it (which terminates all its
channel subscriptions); afterwards the replaced subscriber is closed and the
only live subscription is the freshly created one (or none when
`createSubscriber` fails). -/
theorem watch_resubscribe_teardown (canCreate : Bool)
    (scopes : List ReloadScope) (old : Subscriber) (st : WatchState)
    (hsub : st.subscriber = some old) (hne : scopes ≠ []) :
    (initReloadWatch canCreate scopes st).2
      = (scopes.map fun sc => WatchAction.unsub old.sid (channel sc))
        ++ [WatchAction.closeSub old.sid]
        ++ (if canCreate then
              WatchAction.newSub st.nextSid
                :: scopes.map (fun sc => WatchAction.sub st.nextSid (channel sc))
            else [])
    ∧ ((initReloadWatch canCreate scopes st).1.retired.getLast?).map
        Subscriber.closed = some true
    ∧ (initReloadWatch canCreate scopes st).1.subscriber
        = (if canCreate then some ⟨st.nextSid, scopes.map channel, false⟩
           else none) := by
  have hni : scopes.isEmpty = false := by
    simpa [List.isEmpty_eq_false] using hne
  cases canCreate <;>
    simp [initReloadWatch, hni, hsub, Subscriber.closeSub,
      List.getLast?_concat]

/-- C9 witness: replacing a `schedule` subscription by an `mcp`+`slack`
subscription at a concrete state. -/
theorem watch_resubscribe_teardown_witness :
    (⟨some ⟨5, [channel ReloadScope.schedule], false⟩, 6, []⟩
        : WatchState).subscriber
      = some ⟨5, [channel ReloadScope.schedule], false⟩
    ∧ ([ReloadScope.mcp, ReloadScope.slack] ≠ ([] : List ReloadScope))
    ∧ (initReloadWatch true [ReloadScope.mcp, ReloadScope.slack]
        ⟨some ⟨5, [channel ReloadScope.schedule], false⟩, 6, []⟩).1.subscriber
      = some ⟨6, [channel ReloadScope.mcp, channel ReloadScope.slack], false⟩ := by
  refine ⟨rfl, by decide, ?_⟩
  have h := (watch_resubscribe_teardown true [ReloadScope.mcp, ReloadScope.slack]
    ⟨5, [channel ReloadScope.schedule], false⟩
    ⟨some ⟨5, [channel ReloadScope.schedule], false⟩, 6, []⟩ rfl
    (by decide)).2.2
  simpa using h

/-- C10 witness: sharing of the dedup set across two distinct router
instances at a concrete input. -/
theorem dedup_shared_across_routers_witness :
    seenHas [] 0 (rawKey msgRaw) = false
    ∧ (59999 : Nat) < 0 + DEDUP_TTL_MS
    ∧ dispatch hbNone (dispatch hbNone [] ⟨[7], [], false⟩ 0 msgRaw none
          "uuid-a").seen ⟨[8], [], false⟩ 59999 msgRaw none "uuid-b"
        = { id := "uuid-b"
            seen := (dispatch hbNone [] ⟨[7], [], false⟩ 0 msgRaw none
              "uuid-a").seen
            router := ⟨[8], [], false⟩
            invocations := [] } :=
  ⟨by decide, by decide,
   dedup_shared_across_routers hbNone [] ⟨[7], [], false⟩ ⟨[8], [], false⟩ 0
     59999 msgRaw msgRaw none "uuid-a" "uuid-b" rfl rfl rfl (by decide)
     (by decide)⟩

end Hooman
